import Mathlib

/-!
A verification development for the A11Y-scanner repository.

The scan pipeline lives in src/lib/scanner/scanWithAxe.ts, the HTTP
endpoint in src/app/api/scan/route.ts, and the client-side filtering in
src/components/ScanForm.tsx.  We embed these TypeScript functions as pure
Lean functions.  Effectful steps (browser launch, context/page creation,
navigation, script injection, audit evaluation, and the system clock) are
embedded as an explicit environment record `ScanEnv`: each fallible step
is an `Except` value carrying, on failure, the thrown exception's optional
`message` string, and the clock read `new Date().toISOString()` is the
environment's `now` string.  Browser teardown (`browser.close()` in the
`finally` block) is modelled as always succeeding; the acquisition and
release of the browser are recorded in an event trace so that resource
claims can be stated.
-/

/-! ## JavaScript string primitives used by the sources -/

/-- Model of the whitespace class trimmed by JavaScript `String.prototype.trim`. -/
def isSpace (c : Char) : Bool := c.isWhitespace

/-- Drop leading whitespace of a character list. -/
def trimLeftL (l : List Char) : List Char := l.dropWhile isSpace

/-- Drop trailing whitespace of a character list. -/
def trimRightL (l : List Char) : List Char := (l.reverse.dropWhile isSpace).reverse

/-- Drop surrounding whitespace of a character list. -/
def trimL (l : List Char) : List Char := trimRightL (trimLeftL l)

/-- Model of JavaScript `s.trim()`. -/
def jsTrim (s : String) : String := ⟨trimL s.data⟩

/-- Model of JavaScript `s.toLowerCase()` (character-wise lowering). -/
def lowerStr (s : String) : String := ⟨s.data.map Char.toLower⟩

/-- Does `seg` occur as a contiguous segment of `l`?  Model of JavaScript
`String.prototype.includes` on character lists. -/
def containsSeg (seg : List Char) : List Char → Bool
  | [] => seg.isEmpty
  | x :: xs => seg.isPrefixOf (x :: xs) || containsSeg seg xs

/-- Model of JavaScript `s.includes(sub)`. -/
def jsIncludes (s sub : String) : Bool := containsSeg sub.data s.data

/-! ## The URL normalizer (src/lib/scanner/scanWithAxe.ts, normalizeUrl)

The source tests the trimmed input against the regular expression
/^https?:\/\//i.  We embed the regex operationally: `matchChain pat l`
matches the literal pattern `pat` (given in lowercase) case-insensitively
against the front of `l`, returning the unconsumed rest, and
`regexHttpTest` runs the pattern h t t p s? : / / with the optional `s`
tried greedily first, as a backtracking regex engine would. -/

/-- Case-insensitive literal matching of a lowercase pattern against the
front of a list, returning the rest on success. -/
def matchChain : List Char → List Char → Option (List Char)
  | [], l => some l
  | _ :: _, [] => none
  | c :: cs, x :: xs => if x.toLower = c then matchChain cs xs else none

/-- Model of the test /^https?:\/\//i from the source: match `http`, then
optionally `s` (greedy, with backtracking), then `://`. -/
def regexHttpTest (s : String) : Bool :=
  match matchChain ['h', 't', 't', 'p'] s.data with
  | none => false
  | some rest =>
    match matchChain ['s'] rest with
    | some rest2 =>
      (matchChain [':', '/', '/'] rest2).isSome
        || (matchChain [':', '/', '/'] rest).isSome
    | none => (matchChain [':', '/', '/'] rest).isSome

/-- Embedding of `normalizeUrl` from src/lib/scanner/scanWithAxe.ts. -/
def normalizeUrl (input : String) : String :=
  let trimmed := jsTrim input
  if !regexHttpTest trimmed then "https://" ++ trimmed else trimmed

/-- The normalizer as the specification words it: trim surrounding
whitespace; if the trimmed string does not start with http:// or https://
(matched case-insensitively), prepend https://; otherwise return the
trimmed string unchanged. -/
def normalizeUrlSpec (input : String) : String :=
  let t := jsTrim input
  let low := t.data.map Char.toLower
  if "http://".data.isPrefixOf low || "https://".data.isPrefixOf low then t
  else "https://" ++ t

/-! ## Data model (src/lib/types.ts) -/

/-- Impact levels of the AxeImpact union type. -/
inductive AxeImpact where
  | minor
  | moderate
  | serious
  | critical
deriving DecidableEq, Repr

/-- One offending DOM location (type AxeNode). -/
structure AxeNode where
  html : Option String
  target : Option (List String)
  failureSummary : Option String
deriving DecidableEq, Repr

/-- One shaped violation record (type AxeViolation). -/
structure AxeViolation where
  id : String
  impact : Option AxeImpact
  description : String
  help : String
  helpUrl : Option String
  tags : List String
  nodes : List AxeNode
deriving DecidableEq, Repr

/-- The response shape of the scanner (type ScanResponse); optional fields
are embedded as `Option`. -/
structure ScanResponse where
  ok : Bool
  url : Option String
  timestamp : Option String
  violations : List AxeViolation
  error : Option String
deriving DecidableEq, Repr

/-! ## Raw engine output (the AxeRunResult type of scanWithAxe.ts)

The shaping code reads `v.tags ?? []`, `v.nodes ?? []` and
`result.violations ?? []`, so those fields are embedded as `Option` to
cover absent values the defaulting guards against. -/

/-- A raw node record of the engine output. -/
structure RawNode where
  html : Option String
  target : Option (List String)
  failureSummary : Option String
deriving DecidableEq, Repr

/-- A raw violation record of the engine output. -/
structure RawViolation where
  id : String
  impact : Option AxeImpact
  description : String
  help : String
  helpUrl : Option String
  tags : Option (List String)
  nodes : Option (List RawNode)
deriving DecidableEq, Repr

/-- The raw engine result (type AxeRunResult). -/
structure AxeRunResult where
  url : Option String
  violations : Option (List RawViolation)
deriving DecidableEq, Repr

/-! ## The Result Shaper (toScanResponse)

The source builds `timestamp: new Date().toISOString()` inside the
function; the clock read is embedded as the explicit argument `now`. -/

/-- Shape one raw node. -/
def shapeNode (n : RawNode) : AxeNode :=
  { html := n.html, target := n.target, failureSummary := n.failureSummary }

/-- Shape one raw violation: field renaming and defaulting only. -/
def shapeViolation (v : RawViolation) : AxeViolation :=
  { id := v.id
    impact := v.impact
    description := v.description
    help := v.help
    helpUrl := v.helpUrl
    tags := v.tags.getD []
    nodes := (v.nodes.getD []).map shapeNode }

/-- Embedding of `toScanResponse` from src/lib/scanner/scanWithAxe.ts. -/
def toScanResponse (now : String) (url : String) (result : AxeRunResult) :
    ScanResponse :=
  { ok := true
    url := some url
    timestamp := some now
    violations := (result.violations.getD []).map shapeViolation
    error := none }

/-- Reinterpret a shaped node as raw engine input. -/
def rawOfNode (n : AxeNode) : RawNode :=
  { html := n.html, target := n.target, failureSummary := n.failureSummary }

/-- Reinterpret a shaped violation as raw engine input: a shaped record is
in particular a well-formed raw record, with every defaulted field present. -/
def rawOfShaped (v : AxeViolation) : RawViolation :=
  { id := v.id
    impact := v.impact
    description := v.description
    help := v.help
    helpUrl := v.helpUrl
    tags := some v.tags
    nodes := some (v.nodes.map rawOfNode) }

/-! ## The Scan Orchestrator (scanWithAxe)

Each fallible pipeline stage is one field of the environment.  A failure
carries the thrown exception's `message`, which in JavaScript may itself
be absent (`Option String`): the catch clause reads `e?.message ?? "Scan
failed"`, which substitutes the default only when the message is absent,
not when it is the empty string. -/

/-- A thrown exception's optional message. -/
abbrev ErrMsg := Option String

/-- The effect environment of one `scanWithAxe` invocation. -/
structure ScanEnv where
  launch : Except ErrMsg Unit
  newContext : Except ErrMsg Unit
  newPage : Except ErrMsg Unit
  goto : String → Except ErrMsg Unit
  addScriptTag : Except ErrMsg Unit
  evaluate : Except ErrMsg AxeRunResult
  now : String

/-- Browser resource events recorded by the embedding. -/
inductive ResEvent where
  | acquire
  | release
deriving DecidableEq, Repr

/-- The catch-clause response: `{ok:false, url:targetUrl, timestamp:now,
violations:[], error: e?.message ?? "Scan failed"}`. -/
def scanErrorResponse (now targetUrl : String) (e : ErrMsg) : ScanResponse :=
  { ok := false
    url := some targetUrl
    timestamp := some now
    violations := []
    error := some (e.getD "Scan failed") }

/-- The pipeline stages run inside the try block after a successful
browser launch, sequenced left to right with the first failure winning. -/
def runAfterLaunch (env : ScanEnv) (targetUrl : String) :
    Except ErrMsg AxeRunResult := do
  _ ← env.newContext
  _ ← env.newPage
  _ ← env.goto targetUrl
  _ ← env.addScriptTag
  env.evaluate

/-- Embedding of `scanWithAxe` from src/lib/scanner/scanWithAxe.ts,
instrumented with the browser acquire/release trace.  `normalizeUrl` runs
before the try block; if `chromium.launch` throws, the local `browser`
stays null and the finally block closes nothing; once the launch has
succeeded, every exit path (return or caught error) runs the finally
block, which closes the browser. -/
def scanWithAxeT (env : ScanEnv) (url : String) :
    ScanResponse × List ResEvent :=
  let targetUrl := normalizeUrl url
  match env.launch with
  | .error e => (scanErrorResponse env.now targetUrl e, [])
  | .ok _ =>
    match runAfterLaunch env targetUrl with
    | .ok r =>
      (toScanResponse env.now targetUrl r, [.acquire, .release])
    | .error e =>
      (scanErrorResponse env.now targetUrl e, [.acquire, .release])

/-- The ScanResponse returned to the caller of `scanWithAxe`. -/
def scanWithAxe (env : ScanEnv) (url : String) : ScanResponse :=
  (scanWithAxeT env url).1

/-- The browser resource trace of one `scanWithAxe` invocation. -/
def scanTrace (env : ScanEnv) (url : String) : List ResEvent :=
  (scanWithAxeT env url).2

/-! ## The HTTP endpoint (src/app/api/scan/route.ts, POST) -/

/-- The `url` field as found in the parsed request body: absent, present
but not a string, or a string. -/
inductive UrlField where
  | missing
  | notString
  | str (s : String)
deriving DecidableEq, Repr

/-- A JavaScript exception as read by the route's catch clause:
`e?.message` and `e?.stack`, each possibly absent. -/
structure JsError where
  message : Option String
  stack : Option String
deriving DecidableEq, Repr

/-- The request as the route sees it: `await req.json()` either throws or
yields a body whose `url` field is described by `UrlField`. -/
abbrev RouteRequest := Except JsError UrlField

/-- The 400 response body for a missing url. -/
def missingUrlResponse : ScanResponse :=
  { ok := false, url := none, timestamp := none, violations := [],
    error := some "Missing url" }

/-- Embedding of `POST` from src/app/api/scan/route.ts; the result is the
HTTP status code paired with the JSON response body. -/
def POST (env : ScanEnv) (req : RouteRequest) : Nat × ScanResponse :=
  match req with
  | .error e =>
    (500,
      { ok := false, url := none, timestamp := none, violations := [],
        error := some ((e.message.getD "Scan failed") ++ "\n" ++
          (e.stack.getD "")) })
  | .ok body =>
    match body with
    | .missing => (400, missingUrlResponse)
    | .notString => (400, missingUrlResponse)
    | .str s =>
      if s = "" then (400, missingUrlResponse)
      else
        let result := scanWithAxe env s
        if !result.ok then (500, result) else (200, result)

/-! ## The client UI filter (src/components/ScanForm.tsx) -/

/-- The minimum-severity selector value. -/
inductive MinImpact where
  | all
  | moderate
  | serious
  | critical
deriving DecidableEq, Repr

/-- The string key of a MinImpact value as used to index IMPACT_RANK. -/
def minImpactKey : MinImpact → String
  | .all => "all"
  | .moderate => "moderate"
  | .serious => "serious"
  | .critical => "critical"

/-- The string form of an impact value (the ScanResponse carries the
AxeImpact union, which the form reads as a string). -/
def impactKey : AxeImpact → String
  | .minor => "minor"
  | .moderate => "moderate"
  | .serious => "serious"
  | .critical => "critical"

/-- The IMPACT_RANK record: minor 1, moderate 2, serious 3, critical 4;
any other key is absent. -/
def IMPACT_RANK (s : String) : Option Nat :=
  if s = "minor" then some 1
  else if s = "moderate" then some 2
  else if s = "serious" then some 3
  else if s = "critical" then some 4
  else none

/-- Embedding of `passesImpact`: for the "all" threshold everything
passes; otherwise the rank of the impact (defaulting an absent impact to
"minor", and an unknown key to 0) is compared against the threshold's
rank. -/
def passesImpact (minImpact : MinImpact) (impact : Option String) : Bool :=
  match minImpact with
  | .all => true
  | m =>
    let rank := (IMPACT_RANK (impact.getD "minor")).getD 0
    rank ≥ (IMPACT_RANK (minImpactKey m)).getD 0

/-- The free-text match of `filteredViolations`, given the already
trimmed-and-lowered query `q`: an empty query matches everything,
otherwise `q` must occur in the lowered id, help, description, or
comma-joined tags. -/
def matchesQuery (q : String) (v : AxeViolation) : Bool :=
  q.isEmpty
    || jsIncludes (lowerStr v.id) q
    || jsIncludes (lowerStr v.help) q
    || jsIncludes (lowerStr v.description) q
    || jsIncludes (lowerStr (String.intercalate "," v.tags)) q

/-- Embedding of the `filteredViolations` memo of ScanForm.tsx: with no
data an empty list, otherwise the violations passing both the impact
threshold and the free-text query. -/
def filteredViolations (minImpact : MinImpact) (query : String)
    (data : Option ScanResponse) : List AxeViolation :=
  match data with
  | none => []
  | some d =>
    let q := lowerStr (jsTrim query)
    d.violations.filter fun v =>
      passesImpact minImpact (v.impact.map impactKey) && matchesQuery q v

/-! ## Concrete fixtures used by witnesses and counterexamples -/

/-- A raw engine result with an empty violations list. -/
def rawEmpty : AxeRunResult := { url := none, violations := some [] }

/-- An environment in which every pipeline stage succeeds and the audit
reports zero violations. -/
def envOk : ScanEnv :=
  { launch := Except.ok ()
    newContext := Except.ok ()
    newPage := Except.ok ()
    goto := fun _ => Except.ok ()
    addScriptTag := Except.ok ()
    evaluate := Except.ok rawEmpty
    now := "2024-01-01T00:00:00.000Z" }

/-- An environment in which the browser launch throws an exception whose
message is the empty string (in JavaScript, `new Error("")`). -/
def envEmptyMsg : ScanEnv := { envOk with launch := Except.error (some "") }

/-- An environment in which the browser launch throws. -/
def envLaunchFail : ScanEnv :=
  { envOk with launch := Except.error (some "Executable not found") }

/-! ## C7 and C8: the Result Shaper -/

/-- Shaping a raw node obtained from a shaped node gives the node back. -/
theorem shapeNode_rawOfNode (n : AxeNode) : shapeNode (rawOfNode n) = n := rfl

/-- Shaping a raw violation obtained from a shaped violation gives the
violation back. -/
theorem shapeViolation_rawOfShaped (v : AxeViolation) :
    shapeViolation (rawOfShaped v) = v := by
  have h : shapeNode ∘ rawOfNode = id := funext fun n => rfl
  simp [shapeViolation, rawOfShaped, List.map_map, h]

/-- C7: the Result Shaper is total and idempotent on any well-formed raw
engine output: it produces a list of the same length as the input list, in
the same order (the i-th output is the shaping of the i-th input, with no
filtering or deduplication), a missing tags field defaults to the empty
list, a missing violations list yields the empty list, and shaping an
already-shaped violation list leaves it unchanged. -/
theorem toScanResponse_total_idempotent :
    ∀ (now url : String) (uo : Option String),
      (∀ (l : List RawViolation),
        (toScanResponse now url ⟨uo, some l⟩).violations.length = l.length)
      ∧ (∀ (l : List RawViolation) (i : Nat),
          (toScanResponse now url ⟨uo, some l⟩).violations[i]? =
            (l[i]?).map shapeViolation)
      ∧ (∀ v : RawViolation, v.tags = none → (shapeViolation v).tags = [])
      ∧ (toScanResponse now url ⟨uo, none⟩).violations = []
      ∧ (∀ sl : List AxeViolation,
          (toScanResponse now url ⟨uo, some (sl.map rawOfShaped)⟩).violations
            = sl) := by
  intro now url uo
  refine ⟨?_, ?_, ?_, ?_, ?_⟩
  · intro l
    simp [toScanResponse]
  · intro l i
    simp [toScanResponse]
  · intro v h
    simp [shapeViolation, h]
  · simp [toScanResponse]
  · intro sl
    have h : shapeViolation ∘ rawOfShaped = id :=
      funext fun v => shapeViolation_rawOfShaped v
    simp [toScanResponse, List.map_map, h]

/-- A raw violation with no tags field, as produced by an engine that
omits it. -/
def rawNoTags : RawViolation :=
  { id := "image-alt"
    impact := none
    description := "Images must have alternate text"
    help := "Images must have alternate text"
    helpUrl := none
    tags := none
    nodes := none }

/-- Witness for C7 at a concrete input: the tags default applies to a
concrete raw violation with no tags field. -/
theorem toScanResponse_total_idempotent_witness :
    (shapeViolation rawNoTags).tags = [] :=
  (toScanResponse_total_idempotent "2024-01-01T00:00:00.000Z"
    "https://example.com" none).2.2.1 rawNoTags rfl

/-- C8 counterexample: the shaper reads the system clock for the
timestamp field, so two invocations on the same url and the same raw
engine result, performed at different clock readings, produce different
ScanResponse values — the claim that all fields including the timestamp
are equal fails. -/
theorem toScanResponse_clock_counterexample :
    toScanResponse "2024-01-01T00:00:00.000Z" "https://example.com" rawEmpty ≠
      toScanResponse "2024-01-01T00:00:01.000Z" "https://example.com" rawEmpty := by
  decide

/-- C8 amended: the shaper is deterministic given identical input and
identical clock reading: all fields other than the timestamp agree across
any two invocations on the same url and raw result, and when the clock
readings also agree the full ScanResponse values are equal. -/
theorem toScanResponse_deterministic_given_clock :
    ∀ (t1 t2 url : String) (r : AxeRunResult),
      (toScanResponse t1 url r).ok = (toScanResponse t2 url r).ok
      ∧ (toScanResponse t1 url r).url = (toScanResponse t2 url r).url
      ∧ (toScanResponse t1 url r).violations =
          (toScanResponse t2 url r).violations
      ∧ (toScanResponse t1 url r).error = (toScanResponse t2 url r).error
      ∧ (t1 = t2 → toScanResponse t1 url r = toScanResponse t2 url r) := by
  intro t1 t2 url r
  exact ⟨rfl, rfl, rfl, rfl, fun h => by rw [h]⟩

/-- Witness for the amended C8 at a concrete input. -/
theorem toScanResponse_deterministic_given_clock_witness :
    toScanResponse "2024-01-01T00:00:00.000Z" "https://example.com" rawEmpty =
      toScanResponse "2024-01-01T00:00:00.000Z" "https://example.com" rawEmpty :=
  (toScanResponse_deterministic_given_clock "2024-01-01T00:00:00.000Z"
    "2024-01-01T00:00:00.000Z" "https://example.com" rawEmpty).2.2.2.2 rfl

/-! ## C5 and C6: the HTTP endpoint -/

/-- C5: for a request body whose url field is missing, not a string, or
the empty string, the endpoint responds 400 with the Missing url body,
and the response does not depend on the scan environment — the scan
orchestrator is not invoked. -/
theorem POST_missing_url_400 :
    ∀ (env env2 : ScanEnv) (b : UrlField),
      (b = UrlField.missing ∨ b = UrlField.notString ∨ b = UrlField.str "") →
      POST env (Except.ok b) = (400, missingUrlResponse)
      ∧ POST env (Except.ok b) = POST env2 (Except.ok b) := by
  intro env env2 b h
  rcases h with h | h | h <;> subst h <;> constructor <;> simp [POST]

/-- Witness for C5 at the concrete request with url equal to the empty
string. -/
theorem POST_missing_url_400_witness :
    POST envOk (Except.ok (UrlField.str "")) = (400, missingUrlResponse)
    ∧ POST envOk (Except.ok (UrlField.str "")) =
        POST envEmptyMsg (Except.ok (UrlField.str "")) :=
  POST_missing_url_400 envOk envEmptyMsg (UrlField.str "")
    (Or.inr (Or.inr rfl))

/-- C6: for a non-empty string url the endpoint invokes the orchestrator
and returns its ScanResponse unchanged, with the status a pure function of
the ok field: 200 when ok is true and 500 when ok is false. -/
theorem POST_valid_url_status :
    ∀ (env : ScanEnv) (s : String), s ≠ "" →
      POST env (Except.ok (UrlField.str s)) =
        (if (scanWithAxe env s).ok then 200 else 500, scanWithAxe env s) := by
  intro env s h
  simp only [POST, if_neg h]
  cases hok : (scanWithAxe env s).ok <;> simp [hok]

/-- Witness for C6 at a concrete request and environment. -/
theorem POST_valid_url_status_witness :
    POST envOk (Except.ok (UrlField.str "example.com")) =
      (if (scanWithAxe envOk "example.com").ok then 200 else 500,
        scanWithAxe envOk "example.com") :=
  POST_valid_url_status envOk "example.com" (by decide)

/-! ## C1 and C2: the Scan Orchestrator boundary -/

/-- The message of the pipeline stage that failed during a scan, if any:
the launch failure, else the first failure among the stages run inside the
try block. -/
def failureOf (env : ScanEnv) (url : String) : Option ErrMsg :=
  match env.launch with
  | .error e => some e
  | .ok _ =>
    match runAfterLaunch env (normalizeUrl url) with
    | .error e => some e
    | .ok _ => none

/-- C1: scanWithAxe is total — the embedding returns a ScanResponse for
every environment and url — and every failure of any pipeline stage is
converted into the structured error value with the normalized url, the
current timestamp, an empty violations list and an error message, rather
than propagated. -/
theorem scanWithAxe_never_raises :
    ∀ (env : ScanEnv) (url : String),
      ((scanWithAxe env url).ok = true ∧ (scanWithAxe env url).error = none)
      ∨ ∃ m, scanWithAxe env url =
          { ok := false, url := some (normalizeUrl url),
            timestamp := some env.now, violations := [],
            error := some m } := by
  intro env url
  rcases h1 : env.launch with e | u
  · right
    refine ⟨e.getD "Scan failed", ?_⟩
    simp [scanWithAxe, scanWithAxeT, h1, scanErrorResponse]
  · rcases h2 : runAfterLaunch env (normalizeUrl url) with e | r
    · right
      refine ⟨e.getD "Scan failed", ?_⟩
      simp [scanWithAxe, scanWithAxeT, h1, h2, scanErrorResponse]
    · left
      constructor <;> simp [scanWithAxe, scanWithAxeT, h1, h2, toScanResponse]

/-- C2 counterexample: when the failing stage throws an exception whose
message is the empty string, the returned error field is present but
empty, so the claim that ok=false implies a non-empty error fails at this
concrete input. -/
theorem scanWithAxe_empty_error_counterexample :
    ¬ ((scanWithAxe envEmptyMsg "example.com").ok = false →
        (scanWithAxe envEmptyMsg "example.com").error ≠ some "") := by
  decide

/-- C2 amended: ok=false implies the violations list is empty and the
error field is present (it is non-empty whenever the caught failure's
message is absent or non-empty, but equals the empty string when the
thrown exception carries an empty message); ok=true implies the error
field is absent. -/
theorem scanWithAxe_ok_error_invariant :
    ∀ (env : ScanEnv) (url : String),
      ((scanWithAxe env url).ok = false →
        (scanWithAxe env url).violations = []
        ∧ (scanWithAxe env url).error.isSome = true)
      ∧ ((scanWithAxe env url).ok = true →
          (scanWithAxe env url).error = none)
      ∧ (∀ e, failureOf env url = some e → e ≠ some "" →
          ∃ s, (scanWithAxe env url).error = some s ∧ s ≠ "") := by
  intro env url
  rcases h1 : env.launch with e | u
  · refine ⟨?_, ?_, ?_⟩
    · intro _
      constructor <;> simp [scanWithAxe, scanWithAxeT, h1, scanErrorResponse]
    · intro hok
      simp [scanWithAxe, scanWithAxeT, h1, scanErrorResponse] at hok
    · intro e2 he hne
      have he2 : e = e2 := by simpa [failureOf, h1] using he
      subst he2
      refine ⟨e.getD "Scan failed", ?_, ?_⟩
      · simp [scanWithAxe, scanWithAxeT, h1, scanErrorResponse]
      · rcases e with _ | m
        · simp
        · simp only [Option.getD_some]
          intro hm
          exact hne (by rw [hm])
  · rcases h2 : runAfterLaunch env (normalizeUrl url) with e | r
    · refine ⟨?_, ?_, ?_⟩
      · intro _
        constructor <;> simp [scanWithAxe, scanWithAxeT, h1, h2, scanErrorResponse]
      · intro hok
        simp [scanWithAxe, scanWithAxeT, h1, h2, scanErrorResponse] at hok
      · intro e2 he hne
        have he2 : e = e2 := by simpa [failureOf, h1, h2] using he
        subst he2
        refine ⟨e.getD "Scan failed", ?_, ?_⟩
        · simp [scanWithAxe, scanWithAxeT, h1, h2, scanErrorResponse]
        · rcases e with _ | m
          · simp
          · simp only [Option.getD_some]
            intro hm
            exact hne (by rw [hm])
    · refine ⟨?_, ?_, ?_⟩
      · intro hok
        simp [scanWithAxe, scanWithAxeT, h1, h2, toScanResponse] at hok
      · intro _
        simp [scanWithAxe, scanWithAxeT, h1, h2, toScanResponse]
      · intro e2 he hne
        simp [failureOf, h1, h2] at he

/-- Witness for the amended C2 at a concrete failing environment. -/
theorem scanWithAxe_ok_error_invariant_witness :
    ∃ s, (scanWithAxe envLaunchFail "example.com").error = some s ∧ s ≠ "" :=
  (scanWithAxe_ok_error_invariant envLaunchFail "example.com").2.2
    (some "Executable not found") rfl (by decide)

/-! ## C4: browser resource acquisition and release -/

/-- One invocation either launches no browser (when the launch itself
throws) and records no events, or launches exactly one browser and records
one acquisition followed by one release. -/
theorem scanTrace_shape :
    ∀ (env : ScanEnv) (url : String),
      (env.launch.isOk = true
        ∧ scanTrace env url = [ResEvent.acquire, ResEvent.release])
      ∨ (env.launch.isOk = false ∧ scanTrace env url = []) := by
  intro env url
  rcases h1 : env.launch with e | u
  · right
    constructor
    · simp [Except.isOk, Except.toBool, h1]
    · simp [scanTrace, scanWithAxeT, h1]
  · left
    constructor
    · simp [Except.isOk, Except.toBool, h1]
    · rcases h2 : runAfterLaunch env (normalizeUrl url) with e | r <;>
        simp [scanTrace, scanWithAxeT, h1, h2]

/-- The concatenated resource trace of a sequence of scan calls. -/
def tracesOf (calls : List (ScanEnv × String)) : List ResEvent :=
  (calls.map fun c => scanTrace c.1 c.2).flatten

/-- C4 counterexample: a call whose browser launch throws performs zero
acquisitions, so a sequence of N calls does not always perform exactly N
acquisitions — already at N = 1 the count is 0, not 1. -/
theorem scan_acquire_count_counterexample :
    ¬ ((scanTrace envLaunchFail "example.com").count ResEvent.acquire = 1) := by
  decide

/-- C4 amended: each invocation acquires at most one browser and performs
exactly as many releases as acquisitions on every exit path; hence any
sequence of N calls performs equally many acquisitions and releases, at
most N of each, with exactly N when every browser launch succeeds — no
browser is ever leaked. -/
theorem scan_resource_balanced :
    (∀ (env : ScanEnv) (url : String),
      (scanTrace env url).count ResEvent.acquire ≤ 1
      ∧ (scanTrace env url).count ResEvent.acquire =
          (scanTrace env url).count ResEvent.release)
    ∧ ∀ (calls : List (ScanEnv × String)),
        (tracesOf calls).count ResEvent.acquire =
          (tracesOf calls).count ResEvent.release
        ∧ (tracesOf calls).count ResEvent.acquire ≤ calls.length
        ∧ ((∀ c ∈ calls, c.1.launch.isOk = true) →
            (tracesOf calls).count ResEvent.acquire = calls.length) := by
  constructor
  · intro env url
    rcases scanTrace_shape env url with ⟨_, h⟩ | ⟨_, h⟩ <;> rw [h] <;>
      constructor <;> decide
  · intro calls
    induction calls with
    | nil => exact ⟨rfl, by simp [tracesOf], fun _ => by simp [tracesOf]⟩
    | cons c cs ih =>
      have hsplit : tracesOf (c :: cs) = scanTrace c.1 c.2 ++ tracesOf cs := by
        simp [tracesOf]
      have ha1 : List.count ResEvent.acquire
          [ResEvent.acquire, ResEvent.release] = 1 := by decide
      have hr1 : List.count ResEvent.release
          [ResEvent.acquire, ResEvent.release] = 1 := by decide
      rcases scanTrace_shape c.1 c.2 with ⟨hok, h⟩ | ⟨hok, h⟩
      · have hA : List.count ResEvent.acquire (tracesOf (c :: cs)) =
            1 + List.count ResEvent.acquire (tracesOf cs) := by
          rw [hsplit, h, List.count_append, ha1]
        have hR : List.count ResEvent.release (tracesOf (c :: cs)) =
            1 + List.count ResEvent.release (tracesOf cs) := by
          rw [hsplit, h, List.count_append, hr1]
        refine ⟨?_, ?_, ?_⟩
        · rw [hA, hR, ih.1]
        · rw [hA]
          have := ih.2.1
          simp only [List.length_cons]
          omega
        · intro hall
          have hcs := ih.2.2 fun d hd => hall d (List.mem_cons_of_mem c hd)
          rw [hA, hcs]
          simp only [List.length_cons]
          omega
      · have hA : List.count ResEvent.acquire (tracesOf (c :: cs)) =
            List.count ResEvent.acquire (tracesOf cs) := by
          rw [hsplit, h, List.nil_append]
        have hR : List.count ResEvent.release (tracesOf (c :: cs)) =
            List.count ResEvent.release (tracesOf cs) := by
          rw [hsplit, h, List.nil_append]
        refine ⟨?_, ?_, ?_⟩
        · rw [hA, hR, ih.1]
        · rw [hA]
          have := ih.2.1
          simp only [List.length_cons]
          omega
        · intro hall
          have hc := hall c (List.mem_cons_self c cs)
          rw [hc] at hok
          exact absurd hok (by simp)

/-- Witness for the amended C4: one call in an environment whose launch
succeeds performs exactly one acquisition. -/
theorem scan_resource_balanced_witness :
    (tracesOf [(envOk, "example.com")]).count ResEvent.acquire = 1 :=
  (scan_resource_balanced.2 [(envOk, "example.com")]).2.2
    (fun c hc => by rw [List.mem_singleton.mp hc]; rfl)

/-! ## C10: the impact filter of the client UI -/

/-- C10: the impact filter ranks an absent impact as minor: a violation
with no impact field passes `passesImpact` exactly when the threshold is
"all" (it is excluded under the moderate, serious and critical
thresholds), and accordingly such a violation appears in the filtered
violation list exactly when the threshold is "all" and the free-text
query matches it. -/
theorem passesImpact_absent_ranks_minor :
    ∀ (m : MinImpact),
      (passesImpact m none = true ↔ m = MinImpact.all)
      ∧ (∀ (q : String) (d : ScanResponse) (v : AxeViolation),
          v.impact = none →
          (v ∈ filteredViolations m q (some d) ↔
            m = MinImpact.all ∧ v ∈ d.violations
              ∧ matchesQuery (lowerStr (jsTrim q)) v = true)) := by
  intro m
  have h1 : passesImpact m none = true ↔ m = MinImpact.all := by
    cases m <;> decide
  refine ⟨h1, ?_⟩
  intro q d v hv
  simp only [filteredViolations, List.mem_filter, hv, Option.map_none',
    Bool.and_eq_true, h1]
  tauto

/-- A concrete violation record with no impact field. -/
def vNoImpact : AxeViolation :=
  { id := "image-alt"
    impact := none
    description := "Images must have alternate text"
    help := "Images must have alternate text"
    helpUrl := none
    tags := ["wcag2a"]
    nodes := [] }

/-- A concrete successful scan response holding `vNoImpact`. -/
def dEx : ScanResponse :=
  { ok := true
    url := some "https://example.com"
    timestamp := some "2024-01-01T00:00:00.000Z"
    violations := [vNoImpact]
    error := none }

/-- Witness for C10 at the moderate threshold and a concrete violation
with no impact field. -/
theorem passesImpact_absent_ranks_minor_witness :
    vNoImpact ∈ filteredViolations MinImpact.moderate "" (some dEx) ↔
      MinImpact.moderate = MinImpact.all ∧ vNoImpact ∈ dEx.violations
        ∧ matchesQuery (lowerStr (jsTrim "")) vNoImpact = true :=
  (passesImpact_absent_ranks_minor MinImpact.moderate).2 "" dEx vNoImpact rfl

/-! ## C3 and C9: the URL normalizer -/

/-- The operational regex matcher succeeds exactly when the lowercase
pattern is a prefix of the lowered subject. -/
theorem matchChain_isSome :
    ∀ (p l : List Char),
      (matchChain p l).isSome = p.isPrefixOf (l.map Char.toLower) := by
  intro p
  induction p with
  | nil => intro l; simp [matchChain]
  | cons c cs ih =>
    intro l
    cases l with
    | nil => simp [matchChain]
    | cons x xs =>
      rw [List.map_cons, List.isPrefixOf_cons₂]
      by_cases h : x.toLower = c
      · simp [matchChain, h, ih]
      · have hb : (c == x.toLower) = false := by
          simp only [beq_eq_false_iff_ne, ne_eq]
          exact fun hc => h hc.symm
        simp [matchChain, h, hb]

/-- Matching a concatenated pattern is matching the first part and then
the second on the rest. -/
theorem matchChain_append :
    ∀ (p q l : List Char),
      matchChain (p ++ q) l = (matchChain p l).bind (matchChain q) := by
  intro p q
  induction p with
  | nil => intro l; simp [matchChain]
  | cons c cs ih =>
    intro l
    cases l with
    | nil => simp [matchChain]
    | cons x xs =>
      by_cases h : x.toLower = c
      · simp [matchChain, h, ih]
      · simp [matchChain, h]

/-- The embedded regex test agrees with the startsWith reading of the
pattern: the lowered subject starts with http:// or with https://. -/
theorem regexHttpTest_eq (s : String) :
    regexHttpTest s =
      ("http://".data.isPrefixOf (s.data.map Char.toLower)
        || "https://".data.isPrefixOf (s.data.map Char.toLower)) := by
  rw [← matchChain_isSome, ← matchChain_isSome]
  have h7 : "http://".data = ['h', 't', 't', 'p'] ++ [':', '/', '/'] := rfl
  have h8 : "https://".data =
      ['h', 't', 't', 'p'] ++ (['s'] ++ [':', '/', '/']) := rfl
  rw [h7, h8, matchChain_append, matchChain_append]
  unfold regexHttpTest
  cases h4 : matchChain ['h', 't', 't', 'p'] s.data with
  | none => simp
  | some rest =>
    simp only [Option.some_bind]
    rw [matchChain_append]
    cases h5 : matchChain ['s'] rest with
    | none => simp
    | some rest2 => simp [Bool.or_comm]

/-- C3: the URL normalizer agrees with its specification: trim the input;
if the trimmed string does not start with http:// or https:// matched
case-insensitively, prepend https://, otherwise return it unchanged. -/
theorem normalizeUrl_correct : ∀ (s : String), normalizeUrl s = normalizeUrlSpec s := by
  intro s
  show (if (!regexHttpTest (jsTrim s)) = true then "https://" ++ jsTrim s
      else jsTrim s) =
    (if ("http://".data.isPrefixOf ((jsTrim s).data.map Char.toLower)
        || "https://".data.isPrefixOf ((jsTrim s).data.map Char.toLower)) = true
      then jsTrim s else "https://" ++ jsTrim s)
  rw [regexHttpTest_eq (jsTrim s)]
  cases h : ("http://".data.isPrefixOf ((jsTrim s).data.map Char.toLower)
      || "https://".data.isPrefixOf ((jsTrim s).data.map Char.toLower)) <;>
    simp [h]

/-- dropWhile leaves a list whose head fails the predicate unchanged. -/
theorem dropWhile_head_false (p : Char → Bool) (l : List Char)
    (h : ∀ a, l.head? = some a → p a = false) : l.dropWhile p = l := by
  cases l with
  | nil => rfl
  | cons x xs =>
    have hx : p x = false := h x rfl
    rw [List.dropWhile_cons, hx]
    simp

/-- The head of a dropWhile result fails the predicate. -/
theorem head?_dropWhile_false (p : Char → Bool) :
    ∀ (l : List Char) (a : Char), (l.dropWhile p).head? = some a → p a = false := by
  intro l
  induction l with
  | nil => intro a ha; cases ha
  | cons x xs ih =>
    intro a ha
    rw [List.dropWhile_cons] at ha
    by_cases h : p x
    · rw [if_pos h] at ha
      exact ih a ha
    · rw [if_neg h] at ha
      have : x = a := by
        simpa using ha
      subst this
      simpa using h

/-- A nonempty dropWhile result ends where the original list ends. -/
theorem getLast?_dropWhile (p : Char → Bool) :
    ∀ (l : List Char) (a : Char),
      (l.dropWhile p).getLast? = some a → l.getLast? = some a := by
  intro l
  induction l with
  | nil => intro a ha; cases ha
  | cons x xs ih =>
    intro a ha
    rw [List.dropWhile_cons] at ha
    by_cases h : p x
    · rw [if_pos h] at ha
      have hxs := ih a ha
      have hne : xs ≠ [] := by
        intro hnil
        rw [hnil] at hxs
        cases hxs
      cases xs with
      | nil => exact absurd rfl hne
      | cons y ys => rw [List.getLast?_cons_cons]; exact hxs
    · rw [if_neg h] at ha
      exact ha

/-- The last element of a reversed list is the head of the list. -/
theorem getLast?_reverse_eq_head? (l : List Char) :
    l.reverse.getLast? = l.head? := by
  rw [← List.head?_reverse, List.reverse_reverse]

/-- The head of a trimmed character list is not whitespace. -/
theorem head?_trimL_false (l : List Char) :
    ∀ a, (trimL l).head? = some a → isSpace a = false := by
  intro a ha
  unfold trimL trimRightL trimLeftL at ha
  rw [List.head?_reverse] at ha
  have h1 := getLast?_dropWhile isSpace (l.dropWhile isSpace).reverse a ha
  rw [getLast?_reverse_eq_head?] at h1
  exact head?_dropWhile_false isSpace l a h1

/-- The last element of a trimmed character list is not whitespace. -/
theorem getLast?_trimL_false (l : List Char) :
    ∀ a, (trimL l).getLast? = some a → isSpace a = false := by
  intro a ha
  unfold trimL trimRightL trimLeftL at ha
  rw [getLast?_reverse_eq_head?] at ha
  exact head?_dropWhile_false isSpace (l.dropWhile isSpace).reverse a ha

/-- Trimming a character list is idempotent. -/
theorem trimL_trimL (l : List Char) : trimL (trimL l) = trimL l := by
  have h1 : trimLeftL (trimL l) = trimL l :=
    dropWhile_head_false isSpace (trimL l) (head?_trimL_false l)
  have h2 : (trimL l).reverse.dropWhile isSpace = (trimL l).reverse := by
    apply dropWhile_head_false
    intro a ha
    rw [List.head?_reverse] at ha
    exact getLast?_trimL_false l a ha
  show trimRightL (trimLeftL (trimL l)) = trimL l
  rw [h1]
  unfold trimRightL
  rw [h2, List.reverse_reverse]

/-- JavaScript trim is idempotent. -/
theorem jsTrim_jsTrim (s : String) : jsTrim (jsTrim s) = jsTrim s :=
  String.ext (trimL_trimL s.data)

/-- Prepending the scheme to a trimmed string yields a string trim leaves
unchanged: its head is the letter h and its last character is either the
final slash of the scheme or the last character of the trimmed string. -/
theorem jsTrim_scheme_append (s : String) :
    jsTrim ("https://" ++ jsTrim s) = "https://" ++ jsTrim s := by
  apply String.ext
  have hd : ("https://" ++ jsTrim s).data = "https://".data ++ trimL s.data := rfl
  rw [hd]
  show trimL ("https://".data ++ trimL s.data) = "https://".data ++ trimL s.data
  cases ht : trimL s.data with
  | nil =>
    show trimL ("https://".data ++ []) = "https://".data ++ []
    rw [List.append_nil]
    decide
  | cons y ys =>
    have hne : trimL s.data ≠ [] := by rw [ht]; exact List.cons_ne_nil y ys
    have hsome : ∃ a, (trimL s.data).getLast? = some a := by
      rw [← Option.isSome_iff_exists, List.getLast?_isSome]
      exact hne
    rcases hsome with ⟨a, hlast⟩
    have halast : isSpace a = false := getLast?_trimL_false s.data a hlast
    rw [← ht]
    have h1 : trimLeftL ("https://".data ++ trimL s.data) =
        "https://".data ++ trimL s.data := by
      apply dropWhile_head_false
      intro b hb
      have : b = 'h' := by
        have hh : ("https://".data ++ trimL s.data).head? = some 'h' := rfl
        rw [hh] at hb
        exact (Option.some_inj.mp hb).symm
      rw [this]
      decide
    have h2 : ("https://".data ++ trimL s.data).reverse.dropWhile isSpace =
        ("https://".data ++ trimL s.data).reverse := by
      apply dropWhile_head_false
      intro b hb
      rw [List.head?_reverse] at hb
      rw [List.getLast?_append_of_ne_nil _ hne, hlast] at hb
      have : a = b := Option.some_inj.mp hb
      rw [← this]
      exact halast
    show trimRightL (trimLeftL ("https://".data ++ trimL s.data)) =
      "https://".data ++ trimL s.data
    rw [h1]
    unfold trimRightL
    rw [h2, List.reverse_reverse]

/-- The regex test accepts any string of the form https:// followed by
anything. -/
theorem regexHttpTest_scheme_append (t : String) :
    regexHttpTest ("https://" ++ t) = true := by
  rw [regexHttpTest_eq]
  have hd : ("https://" ++ t).data = "https://".data ++ t.data := rfl
  rw [hd, List.map_append]
  have hlow : "https://".data.map Char.toLower = "https://".data := by decide
  rw [hlow]
  have hp : "https://".data.isPrefixOf
      ("https://".data ++ t.data.map Char.toLower) = true :=
    List.isPrefixOf_iff_prefix.mpr (List.prefix_append _ _)
  rw [hp, Bool.or_true]

/-- C9: the URL normalizer is idempotent: normalizing an already
normalized URL changes nothing. -/
theorem normalizeUrl_idempotent :
    ∀ (s : String), normalizeUrl (normalizeUrl s) = normalizeUrl s := by
  intro s
  by_cases h : regexHttpTest (jsTrim s) = true
  · have h1 : normalizeUrl s = jsTrim s := by
      show (if (!regexHttpTest (jsTrim s)) = true then "https://" ++ jsTrim s
          else jsTrim s) = jsTrim s
      rw [h]
      simp
    rw [h1]
    show (if (!regexHttpTest (jsTrim (jsTrim s))) = true
        then "https://" ++ jsTrim (jsTrim s) else jsTrim (jsTrim s)) = jsTrim s
    rw [jsTrim_jsTrim, h]
    simp
  · have hf : regexHttpTest (jsTrim s) = false := by simpa using h
    have h1 : normalizeUrl s = "https://" ++ jsTrim s := by
      show (if (!regexHttpTest (jsTrim s)) = true then "https://" ++ jsTrim s
          else jsTrim s) = "https://" ++ jsTrim s
      rw [hf]
      simp
    rw [h1]
    show (if (!regexHttpTest (jsTrim ("https://" ++ jsTrim s))) = true
        then "https://" ++ jsTrim ("https://" ++ jsTrim s)
        else jsTrim ("https://" ++ jsTrim s)) = "https://" ++ jsTrim s
    rw [jsTrim_scheme_append, regexHttpTest_scheme_append]
    simp
